import Mathlib

/-!
Verification development for the `free-response-question-analysis` repository.

The repository contains two near-duplicate classification pipelines:
`scripts/classify_responses.py` (embedded below in namespace `Scripts`) and
`classify_responses.py` at the repository root (namespace `Root`).  Shared
infrastructure — a JSON value model for `json.loads`, Python string helpers
(`str.strip`, `str.lower`, `str.find`, `str.rfind`, `os.path.splitext`),
and a Python-`dict` model — comes first.

The external Anthropic client is modelled as an abstract behaviour mapping
(prompt, attempt index) to an outcome: a successful raw text, an
`APIStatusError` with a status code, or a generic exception.  `time.sleep`
calls are recorded as a list of slept durations (in seconds; every
reachable backoff delay is an exact small integer, so they are naturals),
making the retry/backoff policy an observable of the embedding.
-/

/-- JSON values as produced by a `json.loads`-style reader.  Object members
are kept in parse order; a later duplicate key shadows an earlier one on
lookup, matching Python `dict` construction. -/
inductive JValue where
  | null
  | bool (b : Bool)
  /-- A JSON number, kept as the exact decimal `mant * 10 ^ exp10` without
  evaluation (the pipeline never computes with numeric payload fields, it
  only tests them for type and truthiness). -/
  | num (mant : Int) (exp10 : Int)
  | str (s : String)
  | arr (xs : List JValue)
  | obj (kvs : List (String × JValue))

/-- Whether a `JValue` is a JSON string (Python `isinstance(x, str)`). -/
def JValue.isStr : JValue → Bool
  | .str _ => true
  | _ => false

/-- Python truthiness of a JSON value (`bool(x)`). -/
def truthy : JValue → Bool
  | .null => false
  | .bool b => b
  | .num mant _ => mant ≠ 0
  | .str s => s ≠ ""
  | .arr xs => !xs.isEmpty
  | .obj kvs => !kvs.isEmpty

/-- Python `dict.get`: the value of the LAST member with the given key
(later duplicate keys shadow earlier ones in `json.loads`). -/
def pyGet (kvs : List (String × JValue)) (k : String) : Option JValue :=
  match kvs with
  | [] => none
  | (k0, v) :: rest =>
    match pyGet rest k with
    | some v2 => some v2
    | none => if k0 = k then some v else none

/-- Python `dict.get(k, default)`. -/
def pyGetD (kvs : List (String × JValue)) (k : String) (d : JValue) : JValue :=
  (pyGet kvs k).getD d

/-- Python `d[k] = v` on an association-list dict: overwrite the first
binding in place, or append a fresh binding at the end (insertion order). -/
def dictSet {α : Type} (d : List (String × α)) (k : String) (v : α) :
    List (String × α) :=
  match d with
  | [] => [(k, v)]
  | (k0, v0) :: rest =>
    if k0 = k then (k0, v) :: rest else (k0, v0) :: dictSet rest k v

/-- Python `d.get(k, dflt)` / `d[k]` lookup on an association-list dict. -/
def dictGet {α : Type} (d : List (String × α)) (k : String) (dflt : α) : α :=
  match d with
  | [] => dflt
  | (k0, v0) :: rest => if k0 = k then v0 else dictGet rest k dflt

/-- ASCII whitespace stripped by Python `str.strip()` (the ASCII subset;
the source data never contains the additional Unicode space characters). -/
def pyIsSpace (c : Char) : Bool :=
  c = ' ' || c = '\t' || c = '\n' || c = '\r' || c = '\x0b' || c = '\x0c'

/-- The `str.strip()` on a character list. -/
def pyStripChars (cs : List Char) : List Char :=
  ((cs.dropWhile pyIsSpace).reverse.dropWhile pyIsSpace).reverse

/-- Python `str.strip()`. -/
def pyStrip (s : String) : String :=
  String.mk (pyStripChars s.toList)

/-- Python `str.lower()` (ASCII case folding; the category labels are ASCII). -/
def pyLower (s : String) : String :=
  String.mk (s.toList.map Char.toLower)

/-- Index of the first occurrence of a character (Python `str.find`,
with `none` for Python's `-1`). -/
def idxOfChar : List Char → Char → Option Nat
  | [], _ => none
  | c :: rest, t =>
    if c = t then some 0 else (idxOfChar rest t).map (· + 1)

/-- Index of the last occurrence of a character (Python `str.rfind`). -/
def lastIdxOfChar (cs : List Char) (t : Char) : Option Nat :=
  (idxOfChar cs.reverse t).map (fun i => cs.length - 1 - i)

/-- JSON whitespace accepted between tokens by `json.loads`. -/
def isJsonWs (c : Char) : Bool :=
  c = ' ' || c = '\t' || c = '\n' || c = '\r'

/-- Skip JSON whitespace. -/
def skipWs (cs : List Char) : List Char :=
  cs.dropWhile isJsonWs

/-- Value of a hexadecimal digit. -/
def hexVal (c : Char) : Option Nat :=
  if '0' ≤ c && c ≤ '9' then some (c.toNat - 48)
  else if 'a' ≤ c && c ≤ 'f' then some (c.toNat - 87)
  else if 'A' ≤ c && c ≤ 'F' then some (c.toNat - 55)
  else none

/-- ASCII decimal digit test. -/
def isDigitChar (c : Char) : Bool :=
  '0' ≤ c && c ≤ '9'

/-- Value of a digit string. -/
def digitsVal (ds : List Char) : Nat :=
  ds.foldl (fun a c => a * 10 + (c.toNat - 48)) 0

/-- Body of a JSON string literal after the opening quote; returns the
decoded characters and the remaining input.  `json.loads` (strict mode)
rejects raw control characters and unknown escapes; `\uXXXX` escapes
decode to the corresponding scalar (surrogate pairing is not modelled —
the pipeline never relies on it). -/
def parseStrChars : Nat → List Char → Option (List Char × List Char)
  | 0, _ => none
  | _ + 1, [] => none
  | fuel + 1, c :: rest =>
    if c = '"' then some ([], rest)
    else if c = '\\' then
      match rest with
      | [] => none
      | e :: rest2 =>
        let cont := fun (ch : Char) (rem : List Char) =>
          (parseStrChars fuel rem).map (fun p => (ch :: p.1, p.2))
        if e = '"' then cont '"' rest2
        else if e = '\\' then cont '\\' rest2
        else if e = '/' then cont '/' rest2
        else if e = 'b' then cont '\x08' rest2
        else if e = 'f' then cont '\x0c' rest2
        else if e = 'n' then cont '\n' rest2
        else if e = 'r' then cont '\r' rest2
        else if e = 't' then cont '\t' rest2
        else if e = 'u' then
          match rest2 with
          | h1 :: h2 :: h3 :: h4 :: rest3 =>
            match hexVal h1, hexVal h2, hexVal h3, hexVal h4 with
            | some a, some b, some c2, some d =>
              cont (Char.ofNat (((a * 16 + b) * 16 + c2) * 16 + d)) rest3
            | _, _, _, _ => none
          | _ => none
        else none
    else if c.toNat < 32 then none
    else (parseStrChars fuel rest).map (fun p => (c :: p.1, p.2))

/-- Exponent tail of a JSON number (after `e`/`E`). -/
def expTail (cs : List Char) : Option Int × List Char :=
  let (esgn, cs1) :=
    match cs with
    | '+' :: r => ((1 : Int), r)
    | '-' :: r => ((-1 : Int), r)
    | _ => ((1 : Int), cs)
  let ds := cs1.takeWhile isDigitChar
  if ds.isEmpty then (none, cs)
  else (some (esgn * (digitsVal ds : Int)), cs1.dropWhile isDigitChar)

/-- A JSON number: mantissa and power-of-ten exponent, representing the
exact decimal `mant * 10 ^ exp10`.  (Leading-zero rejection is not
modelled; the pipeline's claims never involve numeric payload values.) -/
def parseNum (cs : List Char) : Option ((Int × Int) × List Char) :=
  let (neg, cs1) :=
    match cs with
    | '-' :: r => (true, r)
    | _ => (false, cs)
  let intDs := cs1.takeWhile isDigitChar
  let rest1 := cs1.dropWhile isDigitChar
  if intDs.isEmpty then none
  else
    let (fracDs, rest2) :=
      match rest1 with
      | '.' :: r => (r.takeWhile isDigitChar, r.dropWhile isDigitChar)
      | _ => ([], rest1)
    let fracOk :=
      match rest1 with
      | '.' :: _ => !fracDs.isEmpty
      | _ => true
    if !fracOk then none
    else
      let (expPart, rest3) :=
        match rest2 with
        | 'e' :: r => expTail r
        | 'E' :: r => expTail r
        | _ => (some (0 : Int), rest2)
      match expPart with
      | none => none
      | some e =>
        let mag : Int := (digitsVal (intDs ++ fracDs) : Int)
        let mant : Int := if neg then -mag else mag
        some ((mant, e - (fracDs.length : Int)), rest3)

mutual

/-- One JSON value (recursive descent with explicit fuel). -/
def parseVal : Nat → List Char → Option (JValue × List Char)
  | 0, _ => none
  | fuel + 1, cs =>
    match skipWs cs with
    | 'n' :: 'u' :: 'l' :: 'l' :: r => some (.null, r)
    | 't' :: 'r' :: 'u' :: 'e' :: r => some (.bool true, r)
    | 'f' :: 'a' :: 'l' :: 's' :: 'e' :: r => some (.bool false, r)
    | '"' :: r =>
      (parseStrChars fuel r).map (fun p => (.str (String.mk p.1), p.2))
    | '[' :: r =>
      match skipWs r with
      | ']' :: r2 => some (.arr [], r2)
      | r2 => (parseElems fuel r2).map (fun p => (.arr p.1, p.2))
    | '\x7b' :: r =>
      match skipWs r with
      | '\x7d' :: r2 => some (.obj [], r2)
      | r2 => (parseMembers fuel r2).map (fun p => (.obj p.1, p.2))
    | c :: r =>
      if c = '-' || isDigitChar c then
        (parseNum (c :: r)).map (fun p => (.num p.1.1 p.1.2, p.2))
      else none
    | [] => none

/-- Nonempty comma-separated array elements, up to and including `]`. -/
def parseElems : Nat → List Char → Option (List JValue × List Char)
  | 0, _ => none
  | fuel + 1, cs =>
    match parseVal fuel cs with
    | none => none
    | some (v, r) =>
      match skipWs r with
      | ',' :: r2 => (parseElems fuel (skipWs r2)).map (fun p => (v :: p.1, p.2))
      | ']' :: r2 => some ([v], r2)
      | _ => none

/-- Nonempty comma-separated object members, up to and including `}`. -/
def parseMembers : Nat → List Char → Option (List (String × JValue) × List Char)
  | 0, _ => none
  | fuel + 1, cs =>
    match cs with
    | '"' :: r =>
      match parseStrChars fuel r with
      | none => none
      | some (k, r1) =>
        match skipWs r1 with
        | ':' :: r2 =>
          match parseVal fuel (skipWs r2) with
          | none => none
          | some (v, r3) =>
            match skipWs r3 with
            | ',' :: r4 =>
              (parseMembers fuel (skipWs r4)).map
                (fun p => ((String.mk k, v) :: p.1, p.2))
            | '\x7d' :: r4 => some ([(String.mk k, v)], r4)
            | _ => none
        | _ => none
    | _ => none

end

/-- The `json.loads`: the whole input (modulo surrounding whitespace) must be
one JSON value; `none` models a raised `json.JSONDecodeError`. -/
def parseJson (s : String) : Option JValue :=
  let cs := s.toList
  match parseVal (4 * cs.length + 4) cs with
  | some (v, rest) => if skipWs rest = [] then some v else none
  | none => none

/-- Outcome of one `client.messages.create` call: the combined text of the
response content blocks on success (`_combine_text_blocks` / the root
script's join — the SDK-vs-dict block handling collapses to one joined
string), an `anthropic.APIStatusError` carrying `status_code`, or any
other exception. -/
inductive ClientOutcome where
  | success (raw : String)
  | statusErr (code : Nat) (msg : String)
  | otherErr (msg : String)

/-- Abstract classification client: a deterministic behaviour mapping the
rendered user prompt and the 0-based attempt number to that attempt's
outcome. -/
abbrev ClientSpec := String → Nat → ClientOutcome

/-- The status codes both scripts treat as retryable:
`(429, 500, 502, 503, 504)`. -/
def retryableCode (code : Nat) : Bool :=
  code = 429 || code = 500 || code = 502 || code = 503 || code = 504

/-- Model of `delay = min(delay * 2, 16)`.  The source stores the delay as a float,
but starting from `1.0` and doubling with a cap of `16` every reachable
value is an exact small integer, so delays are carried as naturals. -/
def nextDelay (d : Nat) : Nat := min (d * 2) 16

/-- Result of `classify_text` together with its observable effects: the
returned `(category, second component)` pair, the sequence of `time.sleep`
durations in order, and the number of client calls made. -/
structure RunOut where
  category : String
  payload : String
  sleeps : List Nat
  calls : Nat
deriving DecidableEq

/-- The lenient JSON-region extraction shared by both scripts:
`start = find("{")`, `end = rfind("}")`; if both exist and `end > start`,
the slice `[start : end+1]`, otherwise the whole text. -/
def extractRegion (s : String) : String :=
  let cs := s.toList
  match idxOfChar cs '\x7b', lastIdxOfChar cs '\x7d' with
  | some st, some en =>
    if st < en then String.mk ((cs.drop st).take (en + 1 - st)) else s
  | _, _ => s

/-- Placeholder for Python's `str(e)` of an `AttributeError` raised by
`.get`/`.strip` on a non-dict/non-str value (the exact message text is
runtime-dependent and immaterial to every claim). -/
def attributeErrorMsg : String := "AttributeError"

/-- Placeholder for Python's `str(e)` of a `json.JSONDecodeError` (the
exact message text is runtime-dependent and immaterial to every claim). -/
def jsonDecodeErrorMsg : String := "Expecting value"

/-- The `normalize_category`, parameterised by the allowed-category list (the
two scripts differ only in that list): non-string input maps to "Other";
otherwise the first allowed label matching the stripped, lowercased input
is returned, else "Other". -/
def normalizeWith (allowed : List String) (cat : JValue) : String :=
  match cat with
  | .str s =>
    match allowed.find? (fun a => pyLower (pyStrip s) == pyLower a) with
    | some a => a
    | none => "Other"
  | _ => "Other"

/-- Errors raised by the loaders (`ValueError`s in the source, modelled
structurally so that "names the missing column and lists the actual
headers" is checkable). -/
inductive LoadErr where
  /-- scripts loader: "Input file must be .csv" -/
  | csvOnly
  /-- root loader: "Column '<col>' not found in CSV headers: <headers>" -/
  | columnNotFound (col : String) (headers : List String)
  /-- root loader: "Key '<col>' not found in JSON objects: <keys>" -/
  | keyNotFound (col : String) (keys : List String)
  /-- root loader: "JSON must be a list of objects." -/
  | jsonNotList
  /-- a `json.JSONDecodeError` escaping `json.load` inside the loader -/
  | jsonDecodeFail
  /-- root loader: "Input file must be .csv or .json" -/
  | badExt
  /-- a `TypeError`/`AttributeError` from `col in data[0]` on a non-dict -/
  | typeErr
deriving DecidableEq

/-- The basename component used by `os.path.splitext` (POSIX separator). -/
def baseNameChars (cs : List Char) : List Char :=
  match lastIdxOfChar cs '/' with
  | some i => cs.drop (i + 1)
  | none => cs

/-- The `os.path.splitext(path)[1]`: the extension starting at the last dot of
the basename, unless that dot belongs to the leading run of dots. -/
def splitextExt (path : String) : String :=
  let base := baseNameChars path.toList
  let lead := (base.takeWhile (fun c => c = '.')).length
  match lastIdxOfChar base '.' with
  | some i => if lead ≤ i then String.mk (base.drop i) else ""
  | none => ""

/-- The `os.path.splitext(path)[1].lower()` as both loaders compute it. -/
def splitextLower (path : String) : String :=
  pyLower (splitextExt path)

/-- An input file, abstracted as what the two readers would produce from
its bytes: its rows under `csv.reader` (the first row being the header
when read through `csv.DictReader`), and its `json.load` result (`none`
when the bytes are not valid JSON). -/
structure FileData where
  csvView : List (List String)
  jsonView : Option JValue

/-- The per-row dict built by `csv.DictReader`: header keys zipped with
the row's fields, missing trailing fields filled with `None` (extra
fields, which DictReader files under the `None` restkey, are dropped —
no claim involves them). -/
def zipPad : List String → List String → List (String × JValue)
  | [], _ => []
  | h :: hs, [] => (h, JValue.null) :: zipPad hs []
  | h :: hs, v :: vs => (h, JValue.str v) :: zipPad hs vs

/-- The keys of a JSON object (a Python dict's key view), `[]` otherwise. -/
def objKeys : JValue → List String
  | .obj kvs => kvs.map Prod.fst
  | _ => []

/-- Test for the ok case: true exactly for `Except.ok`. -/
def exceptOk {ε α : Type} : Except ε α → Bool
  | .ok _ => true
  | .error _ => false

/-- The `List.map` with the position of each element (used to express that the
orchestrators consume records in order, one client behaviour per record). -/
def mapWithIdx {α β : Type} (f : Nat → α → β) : Nat → List α → List β
  | _, [] => []
  | i, a :: rest => f i a :: mapWithIdx f (i + 1) rest

/-- Python `round(q, 2)`'s integer core: round to nearest with ties to
even (banker's rounding), here applied to `q * 100`. -/
def roundHalfEven (q : ℚ) : Int :=
  if q - ⌊q⌋ < 1 / 2 then ⌊q⌋
  else if 1 / 2 < q - ⌊q⌋ then ⌊q⌋ + 1
  else if ⌊q⌋ % 2 = 0 then ⌊q⌋ else ⌊q⌋ + 1

/-- Python `round(q, 2)`: round half-to-even at two decimal places.  (The
source rounds binary floats; on the exact decimals arising here the two
agree.) -/
def round2 (q : ℚ) : ℚ :=
  (roundHalfEven (q * 100) : ℚ) / 100

/-- The summary dictionary produced by `build_summary`. -/
structure Summary where
  total_inputs : Nat
  category_counts : List (String × Nat)
  category_percents : List (String × ℚ)

namespace Scripts

/-- The `ALLOWED_CATEGORIES` of `scripts/classify_responses.py` (9 labels). -/
def ALLOWED_CATEGORIES : List String :=
  ["Cheating Concerns",
   "Positive Learning Use",
   "Negative Experiences",
   "Overreliance",
   "Trust Issues",
   "Policy/School Rules",
   "Ethical/Privacy Concerns",
   "No Use",
   "Other"]

/-- The `SYSTEM_MSG` of `scripts/classify_responses.py`. -/
def SYSTEM_MSG : String :=
  "You are a strict data labeling assistant. Your task is to classify a single free-text response " ++
  "about AI in education into exactly ONE category from a fixed label set. Return only valid JSON."

/-- The `USER_PROMPT_TEMPLATE` up to the `{text}` placeholder, after `.format`
resolves the doubled braces. -/
def USER_PROMPT_PREFIX : String :=
  "Classify the following free-text response into exactly ONE of the categories below.\n\nCategories (use exact strings):\n- Cheating Concerns: Mentions of academic dishonesty, misuse\n- Positive Learning Use: Says AI helped them understand/study\n- Negative Experiences: Confusing, inaccurate, unhelpful\n- Overreliance: Worries about becoming lazy or dependent\n- Trust Issues: Doesn’t trust responses; always double-checks\n- Policy/School Rules: Mentions bans, restrictions, teacher feedback\n- Ethical/Privacy Concerns: Worries about AI’s effect on society/privacy\n- No Use: “I don’t use AI” or “never used it”\n- Other: Doesn’t fit above or is off-topic\n\nInstructions:\n- Choose exactly one category that best fits overall.\n- If multiple categories seem present, pick the single category that is most apparent overall.\n- If none clearly fit, use \"Other\".\n- Output JSON only in this schema:\n  \x7b\n    \"category\": \"<one of the allowed categories>\",\n    \"reason\": \"<short rationale>\"\n  \x7d\n\nResponse:\n\"\"\""

/-- The `USER_PROMPT_TEMPLATE` after the `{text}` placeholder. -/
def USER_PROMPT_SUFFIX : String := "\"\"\""

/-- The `USER_PROMPT_TEMPLATE.format(text=text)`: a deterministic, pure render. -/
def formatUserPrompt (text : String) : String :=
  USER_PROMPT_PREFIX ++ text ++ USER_PROMPT_SUFFIX

/-- The `normalize_category` of `scripts/classify_responses.py`. -/
def normalize_category (cat : JValue) : String :=
  normalizeWith ALLOWED_CATEGORIES cat

/-- The `for attempt in range(max_retries)` body of `classify_text`
(scripts version), with `fuel` remaining iterations (the invariant
`attempt + fuel = max_retries` holds at every call from `classify_text`).
Falls off the loop with `("Other", "")` when fuel runs out. -/
def classifyLoop (client : ClientSpec) (user_prompt : String) (max_retries : Nat) :
    Nat → Nat → Nat → RunOut
  | 0, _, _ => ⟨"Other", "", [], 0⟩
  | fuel + 1, attempt, delay =>
    match client user_prompt attempt with
    | .success raw =>
      let full_output := pyStrip raw
      let json_region := extractRegion full_output
      match parseJson json_region with
      | some (.obj kvs) =>
        ⟨normalize_category (pyGetD kvs "category" (.str "Other")), full_output, [], 1⟩
      | some _ =>
        -- `data.get` on a non-dict raises `AttributeError`, handled by the
        -- generic `except Exception` arm: sleep and retry unless last attempt
        if attempt = max_retries - 1 then
          ⟨"Other", "Unexpected error: " ++ attributeErrorMsg, [], 1⟩
        else
          let r := classifyLoop client user_prompt max_retries fuel (attempt + 1) (nextDelay delay)
          ⟨r.category, r.payload, delay :: r.sleeps, r.calls + 1⟩
      | none =>
        -- `json.JSONDecodeError`: retried without sleeping; on the last
        -- attempt, the parse-error fallback with the raw output attached
        if attempt = max_retries - 1 then
          ⟨"Other", "Parse error: " ++ jsonDecodeErrorMsg ++ " | raw=\n" ++ full_output, [], 1⟩
        else
          let r := classifyLoop client user_prompt max_retries fuel (attempt + 1) delay
          ⟨r.category, r.payload, r.sleeps, r.calls + 1⟩
    | .statusErr code msg =>
      if retryableCode code ∧ attempt < max_retries - 1 then
        let r := classifyLoop client user_prompt max_retries fuel (attempt + 1) (nextDelay delay)
        ⟨r.category, r.payload, delay :: r.sleeps, r.calls + 1⟩
      else if attempt = max_retries - 1 then
        ⟨"Other", "API error (" ++ toString code ++ "): " ++ msg, [], 1⟩
      else
        let r := classifyLoop client user_prompt max_retries fuel (attempt + 1) delay
        ⟨r.category, r.payload, r.sleeps, r.calls + 1⟩
    | .otherErr msg =>
      if attempt = max_retries - 1 then
        ⟨"Other", "Unexpected error: " ++ msg, [], 1⟩
      else
        let r := classifyLoop client user_prompt max_retries fuel (attempt + 1) (nextDelay delay)
        ⟨r.category, r.payload, delay :: r.sleeps, r.calls + 1⟩

/-- The `classify_text` of `scripts/classify_responses.py`: returns
`(category, full_output)`; `delay` starts at 1. -/
def classify_text (client : ClientSpec) (model : String) (text : String)
    (max_retries : Nat := 5) : RunOut :=
  let user_prompt := formatUserPrompt text
  classifyLoop client user_prompt max_retries max_retries 0 1

/-- The row loop of `read_csv_answers`: skip empty rows, strip the first
field, keep it when nonempty. -/
def collectAnswers : List (List String) → List String
  | [] => []
  | row :: rest =>
    match row with
    | [] => collectAnswers rest
    | x :: _ =>
      let text := pyStrip x
      if text = "" then collectAnswers rest else text :: collectAnswers rest

/-- The `read_csv_answers` of `scripts/classify_responses.py`, over the file's
`csv.reader` rows. -/
def read_csv_answers (input_path : String) (csvRows : List (List String)) :
    Except LoadErr (List String) :=
  if splitextLower input_path = ".csv" then .ok (collectAnswers csvRows)
  else .error .csvOnly

/-- The `build_summary` of `scripts/classify_responses.py`. -/
def build_summary (categories : List String) : Summary :=
  let total := categories.length
  let counts : List (String × Nat) :=
    categories.foldl (fun d c => dictSet d c (dictGet d c 0 + 1))
      (ALLOWED_CATEGORIES.map (fun label => (label, 0)))
  let percents :=
    ALLOWED_CATEGORIES.map (fun label =>
      (label,
        if total = 0 then (0 : ℚ)
        else round2 (((dictGet counts label 0 : Nat) : ℚ) * 100 / (total : ℚ))))
  ⟨total, counts, percents⟩

/-- One output record of the scripts pipeline:
`{"input": ..., "output": ..., "category": ...}`. -/
structure OutRecord where
  input : String
  output : String
  category : String
deriving DecidableEq

/-- The record loop of `main` (scripts version): one `classify_text` call
per answer (default retries), collecting the records and categories in
order.  `clients idx` is the client behaviour while record `idx` is being
classified. -/
def runRecordsGo (clients : Nat → ClientSpec) (model : String) :
    Nat → List String → List OutRecord × List String
  | _, [] => ([], [])
  | idx, text :: rest =>
    let r := classify_text (clients idx) model text 5
    let (recs, cats) := runRecordsGo clients model (idx + 1) rest
    (⟨text, r.payload, r.category⟩ :: recs, r.category :: cats)

/-- The record loop of `main` (scripts version), from the first record. -/
def runRecords (clients : Nat → ClientSpec) (model : String)
    (answers : List String) : List OutRecord × List String :=
  runRecordsGo clients model 0 answers

end Scripts

namespace Root

/-- The `ALLOWED_CATEGORIES` of the root `classify_responses.py` (10 labels,
adding "Mixed Views"). -/
def ALLOWED_CATEGORIES : List String :=
  ["Cheating Concerns",
   "Positive Learning Use",
   "Negative Experiences",
   "Overreliance",
   "Trust Issues",
   "Policy/School Rules",
   "Mixed Views",
   "Ethical/Privacy Concerns",
   "No Use",
   "Other"]

/-- The `SYSTEM_MSG` of the root script (identical text). -/
def SYSTEM_MSG : String :=
  "You are a strict data labeling assistant. Your task is to classify a single free-text response " ++
  "about AI in education into exactly ONE category from a fixed label set. Return only valid JSON."

/-- The `USER_PROMPT_TEMPLATE` (root variant) up to the `{text}` placeholder,
after `.format` resolves the doubled braces. -/
def USER_PROMPT_PREFIX : String :=
  "Classify the following free-text response into exactly ONE of the categories below.\n\nCategories (use exact strings):\n- Cheating Concerns: Mentions of academic dishonesty, misuse\n- Positive Learning Use: Says AI helped them understand/study\n- Negative Experiences: Confusing, inaccurate, unhelpful\n- Overreliance: Worries about becoming lazy or dependent\n- Trust Issues: Doesn’t trust responses; always double-checks\n- Policy/School Rules: Mentions bans, restrictions, teacher feedback\n- Mixed Views: Likes AI but has concerns\n- Ethical/Privacy Concerns: Worries about AI’s effect on society/privacy\n- No Use: “I don’t use AI” or “never used it”\n- Other: Doesn’t fit above or is off-topic\n\nInstructions:\n- Choose exactly one category that best fits overall.\n- If none clearly fit, use \"Other\".\n- Output JSON only in this schema:\n  \x7b\n    \"category\": \"<one of the allowed categories>\",\n    \"reason\": \"<short rationale>\"\n  \x7d\n\nResponse:\n\"\"\""

/-- The `USER_PROMPT_TEMPLATE` (root variant) after the `{text}` placeholder. -/
def USER_PROMPT_SUFFIX : String := "\"\"\""

/-- The `USER_PROMPT_TEMPLATE.format(text=text)` (root variant). -/
def formatUserPrompt (text : String) : String :=
  USER_PROMPT_PREFIX ++ text ++ USER_PROMPT_SUFFIX

/-- The `normalize_category` of the root `classify_responses.py`. -/
def normalize_category (cat : JValue) : String :=
  normalizeWith ALLOWED_CATEGORIES cat

/-- The retry loop of the root `classify_text`.  It differs from the
scripts version only in the success arm (it extracts and strips a
`reason`, via `(data.get("reason") or "").strip()`) and in the fallback
message texts.  Falls off the loop with `("Other", "Unknown error")`. -/
def classifyLoop (client : ClientSpec) (user_prompt : String) (max_retries : Nat) :
    Nat → Nat → Nat → RunOut
  | 0, _, _ => ⟨"Other", "Unknown error", [], 0⟩
  | fuel + 1, attempt, delay =>
    match client user_prompt attempt with
    | .success raw =>
      let combined := pyStrip raw
      let json_region := extractRegion combined
      match parseJson json_region with
      | some (.obj kvs) =>
        let category := normalize_category (pyGetD kvs "category" (.str "Other"))
        match pyGetD kvs "reason" .null with
        | .str s =>
          -- `(s or "").strip()`: for the empty string the `or` arm yields
          -- `""` and stripping it is again `""`, so both cases are `pyStrip s`
          ⟨category, pyStrip s, [], 1⟩
        | rv =>
          if truthy rv then
            -- `.strip()` on a truthy non-string raises `AttributeError`:
            -- generic `except Exception` arm, sleep and retry unless last
            if attempt = max_retries - 1 then
              ⟨"Other", "Unexpected error: " ++ attributeErrorMsg, [], 1⟩
            else
              let r := classifyLoop client user_prompt max_retries fuel (attempt + 1) (nextDelay delay)
              ⟨r.category, r.payload, delay :: r.sleeps, r.calls + 1⟩
          else
            ⟨category, "", [], 1⟩
      | some _ =>
        -- `data.get` on a non-dict raises `AttributeError` (generic arm)
        if attempt = max_retries - 1 then
          ⟨"Other", "Unexpected error: " ++ attributeErrorMsg, [], 1⟩
        else
          let r := classifyLoop client user_prompt max_retries fuel (attempt + 1) (nextDelay delay)
          ⟨r.category, r.payload, delay :: r.sleeps, r.calls + 1⟩
      | none =>
        if attempt = max_retries - 1 then
          ⟨"Other", "Could not parse model output", [], 1⟩
        else
          let r := classifyLoop client user_prompt max_retries fuel (attempt + 1) delay
          ⟨r.category, r.payload, r.sleeps, r.calls + 1⟩
    | .statusErr code msg =>
      if retryableCode code ∧ attempt < max_retries - 1 then
        let r := classifyLoop client user_prompt max_retries fuel (attempt + 1) (nextDelay delay)
        ⟨r.category, r.payload, delay :: r.sleeps, r.calls + 1⟩
      else if attempt = max_retries - 1 then
        ⟨"Other", "API error: " ++ msg, [], 1⟩
      else
        let r := classifyLoop client user_prompt max_retries fuel (attempt + 1) delay
        ⟨r.category, r.payload, r.sleeps, r.calls + 1⟩
    | .otherErr msg =>
      if attempt = max_retries - 1 then
        ⟨"Other", "Unexpected error: " ++ msg, [], 1⟩
      else
        let r := classifyLoop client user_prompt max_retries fuel (attempt + 1) (nextDelay delay)
        ⟨r.category, r.payload, delay :: r.sleeps, r.calls + 1⟩

/-- The `classify_text` of the root `classify_responses.py`: returns
`(category, reason)`; `delay` starts at 1. -/
def classify_text (client : ClientSpec) (model : String) (text : String)
    (max_retries : Nat := 5) : RunOut :=
  let user_prompt := formatUserPrompt text
  classifyLoop client user_prompt max_retries max_retries 0 1

/-- The `load_records` of the root `classify_responses.py`, over the abstract
file content.  CSV rows become `csv.DictReader` dicts (header keys zipped
with fields, blank data rows skipped); a JSON file must hold a list.  The
column/key existence check inspects only the FIRST row and is skipped
entirely when there are no data rows. -/
def load_records (input_path : String) (fd : FileData) (input_column : String) :
    Except LoadErr (List JValue) :=
  let ext := splitextLower input_path
  if ext = ".csv" then
    match fd.csvView with
    | [] => .ok []
    | header :: dataRows =>
      let rows := (dataRows.filter (fun r => !r.isEmpty)).map
        (fun r => JValue.obj (zipPad header r))
      match rows with
      | [] => .ok []
      | r0 :: _ =>
        if input_column ∈ objKeys r0 then .ok rows
        else .error (.columnNotFound input_column (objKeys r0))
  else if ext = ".json" then
    match fd.jsonView with
    | none => .error .jsonDecodeFail
    | some (.arr items) =>
      match items with
      | [] => .ok []
      | it0 :: _ =>
        match it0 with
        | .obj kvs =>
          if input_column ∈ kvs.map Prod.fst then .ok items
          else .error (.keyNotFound input_column (kvs.map Prod.fst))
        | _ => .error .typeErr
    | some _ => .error .jsonNotList
  else .error .badExt

/-- Model of `(row.get(input_column) or "").strip()` in the root `main` loop: a
falsy value yields `""`; a truthy string is stripped; `.get` on a
non-dict row or `.strip()` on a truthy non-string raises (modelled as
`Except.error`), which would abort the whole run. -/
def textOfRow (row : JValue) (col : String) : Except String String :=
  match row with
  | .obj kvs =>
    match pyGetD kvs col .null with
    | .str s => .ok (pyStrip s)
    | v => if truthy v then .error attributeErrorMsg else .ok ""
  | _ => .error attributeErrorMsg

/-- Model of `out_row = dict(row); out_row[k] = v` on a dict row. -/
def rowSet (row : JValue) (k : String) (v : JValue) : JValue :=
  match row with
  | .obj kvs => .obj (dictSet kvs k v)
  | other => other

/-- The record loop of the root `main`: per row, extract the text, one
`classify_text` call (default retries), and append the original row
extended with `category` and `reason`. -/
def processRowsGo (clients : Nat → ClientSpec) (model : String) (col : String) :
    Nat → List JValue → Except String (List JValue)
  | _, [] => .ok []
  | idx, row :: rest =>
    match textOfRow row col with
    | .error e => .error e
    | .ok text =>
      let r := classify_text (clients idx) model text 5
      let out_row := rowSet (rowSet row "category" (.str r.category)) "reason" (.str r.payload)
      match processRowsGo clients model col (idx + 1) rest with
      | .error e => .error e
      | .ok outs => .ok (out_row :: outs)

/-- The record loop of the root `main`, from the first record. -/
def processRows (clients : Nat → ClientSpec) (model : String) (col : String)
    (rows : List JValue) : Except String (List JValue) :=
  processRowsGo clients model col 0 rows

/-- What the root `main` loop appends for one row (used to state that the
output is the in-order image of the input rows). -/
def processedRow (clients : Nat → ClientSpec) (model : String) (col : String)
    (idx : Nat) (row : JValue) : JValue :=
  match textOfRow row col with
  | .ok text =>
    let r := classify_text (clients idx) model text 5
    rowSet (rowSet row "category" (.str r.category)) "reason" (.str r.payload)
  | .error _ => row

end Root

/-- A client outcome that raises and is not in the retryable status class:
an `APIStatusError` whose code is outside `(429, 500, 502, 503, 504)`, or
any other exception. -/
def nonRetryableOutcome : ClientOutcome → Bool
  | .success _ => false
  | .statusErr code _ => !retryableCode code
  | .otherErr _ => true

/-! ### General lemmas -/

/-- The `normalizeWith` is total into any allowed list containing "Other". -/
lemma normalizeWith_mem {allowed : List String} (h : "Other" ∈ allowed) :
    ∀ v : JValue, normalizeWith allowed v ∈ allowed := by
  intro v
  cases v <;> simp only [normalizeWith] <;> try exact h
  case str s =>
    cases hf : List.find? (fun a => pyLower (pyStrip s) == pyLower a) allowed with
    | none => simp only [hf]; exact h
    | some a => simp only [hf]; exact List.mem_of_find?_eq_some hf

/-- Shorthand: "Other" is in the scripts allowed list. -/
lemma other_mem_scripts : ("Other" : String) ∈ Scripts.ALLOWED_CATEGORIES := by decide

/-- Every category produced by the scripts retry loop is an allowed label. -/
lemma scripts_classifyLoop_category_mem (client : ClientSpec) (prompt : String)
    (maxR : Nat) : ∀ fuel attempt delay,
      (Scripts.classifyLoop client prompt maxR fuel attempt delay).category
        ∈ Scripts.ALLOWED_CATEGORIES := by
  intro fuel
  induction fuel with
  | zero => intro attempt delay; exact other_mem_scripts
  | succ fuel ih =>
    intro attempt delay
    simp only [Scripts.classifyLoop]
    split
    · split
      · exact normalizeWith_mem other_mem_scripts _
      · split
        · exact other_mem_scripts
        · exact ih _ _
      · split
        · exact other_mem_scripts
        · exact ih _ _
    · split
      · exact ih _ _
      · split
        · exact other_mem_scripts
        · exact ih _ _
    · split
      · exact other_mem_scripts
      · exact ih _ _

/-! ### Claim C2 -/

/-- Claim C2: for every input text and every behaviour of the
classification client, the category of the result returned by
`classify_text` is a member of the fixed allowed-category set — every
success path goes through the normalizer and every fallback path returns
the sentinel "Other", which is a member of the set. -/
theorem c2_category_always_allowed (client : ClientSpec) (model text : String)
    (max_retries : Nat) :
    (Scripts.classify_text client model text max_retries).category
      ∈ Scripts.ALLOWED_CATEGORIES :=
  scripts_classifyLoop_category_mem client _ max_retries max_retries 0 1

/-- A string with a nonempty left part of an append is nonempty. -/
lemma append_ne_empty_left (s t : String) (h : s ≠ "") : s ++ t ≠ "" := by
  intro he
  apply h
  have hd := congrArg String.data he
  simp only [String.data_append] at hd
  rcases List.append_eq_nil.mp hd with ⟨h1, _⟩
  cases s
  simp only at h1
  simp [h1]

/-- Scripts retry loop under an always-non-retryably-failing client: the
fallback result "Other" with a nonempty diagnostic, for every attempt
position inside the loop. -/
lemma scripts_classifyLoop_nonretryable (client : ClientSpec) (prompt : String)
    (maxR : Nat) (hcl : ∀ p n, nonRetryableOutcome (client p n) = true) :
    ∀ fuel attempt delay, attempt + fuel = maxR → 1 ≤ fuel →
      (Scripts.classifyLoop client prompt maxR fuel attempt delay).category = "Other"
      ∧ (Scripts.classifyLoop client prompt maxR fuel attempt delay).payload ≠ "" := by
  intro fuel
  induction fuel with
  | zero => intro attempt delay hinv h1; exact (Nat.not_succ_le_zero 0 h1).elim
  | succ fuel ih =>
    intro attempt delay hinv h1
    simp only [Scripts.classifyLoop]
    cases hc : client prompt attempt with
    | success raw =>
      exfalso
      have hs := hcl prompt attempt
      rw [hc] at hs
      simp [nonRetryableOutcome] at hs
    | statusErr code msg =>
      have hnr := hcl prompt attempt
      rw [hc] at hnr
      simp only [nonRetryableOutcome, Bool.not_eq_true'] at hnr
      have cond1 : ¬(retryableCode code = true ∧ attempt < maxR - 1) := by
        simp [hnr]
      dsimp only
      rw [if_neg cond1]
      by_cases hl : attempt = maxR - 1
      · rw [if_pos hl]
        exact ⟨rfl, append_ne_empty_left _ _
          (append_ne_empty_left _ _ (append_ne_empty_left _ _ (by decide)))⟩
      · rw [if_neg hl]
        exact ih (attempt + 1) delay (by omega) (by omega)
    | otherErr msg =>
      dsimp only
      by_cases hl : attempt = maxR - 1
      · rw [if_pos hl]
        exact ⟨rfl, append_ne_empty_left _ _ (by decide)⟩
      · rw [if_neg hl]
        exact ih (attempt + 1) (nextDelay delay) (by omega) (by omega)

/-- Root retry loop under an always-non-retryably-failing client: the
fallback result "Other" with a nonempty diagnostic. -/
lemma root_classifyLoop_nonretryable (client : ClientSpec) (prompt : String)
    (maxR : Nat) (hcl : ∀ p n, nonRetryableOutcome (client p n) = true) :
    ∀ fuel attempt delay, attempt + fuel = maxR → 1 ≤ fuel →
      (Root.classifyLoop client prompt maxR fuel attempt delay).category = "Other"
      ∧ (Root.classifyLoop client prompt maxR fuel attempt delay).payload ≠ "" := by
  intro fuel
  induction fuel with
  | zero => intro attempt delay hinv h1; exact (Nat.not_succ_le_zero 0 h1).elim
  | succ fuel ih =>
    intro attempt delay hinv h1
    simp only [Root.classifyLoop]
    cases hc : client prompt attempt with
    | success raw =>
      exfalso
      have hs := hcl prompt attempt
      rw [hc] at hs
      simp [nonRetryableOutcome] at hs
    | statusErr code msg =>
      have hnr := hcl prompt attempt
      rw [hc] at hnr
      simp only [nonRetryableOutcome, Bool.not_eq_true'] at hnr
      have cond1 : ¬(retryableCode code = true ∧ attempt < maxR - 1) := by
        simp [hnr]
      dsimp only
      rw [if_neg cond1]
      by_cases hl : attempt = maxR - 1
      · rw [if_pos hl]
        exact ⟨rfl, append_ne_empty_left _ _ (by decide)⟩
      · rw [if_neg hl]
        exact ih (attempt + 1) delay (by omega) (by omega)
    | otherErr msg =>
      dsimp only
      by_cases hl : attempt = maxR - 1
      · rw [if_pos hl]
        exact ⟨rfl, append_ne_empty_left _ _ (by decide)⟩
      · rw [if_neg hl]
        exact ih (attempt + 1) (nextDelay delay) (by omega) (by omega)

/-- The scripts record loop emits exactly one record and one category per
answer, and the records carry the answers in order. -/
lemma scripts_runRecordsGo_shape (clients : Nat → ClientSpec) (model : String) :
    ∀ (texts : List String) (idx : Nat),
      (Scripts.runRecordsGo clients model idx texts).1.length = texts.length
      ∧ (Scripts.runRecordsGo clients model idx texts).1.map Scripts.OutRecord.input = texts
      ∧ (Scripts.runRecordsGo clients model idx texts).2.length = texts.length := by
  intro texts
  induction texts with
  | nil => intro idx; exact ⟨rfl, rfl, rfl⟩
  | cons t rest ih =>
    intro idx
    have h := ih (idx + 1)
    simp only [Scripts.runRecordsGo]
    cases hr : Scripts.runRecordsGo clients model (idx + 1) rest with
    | mk recs cats =>
      rw [hr] at h
      dsimp only at h ⊢
      refine ⟨?_, ?_, ?_⟩ <;> simp [h.1, h.2.1, h.2.2]

/-- The `mapWithIdx` preserves length. -/
lemma mapWithIdx_length {α β : Type} (f : Nat → α → β) :
    ∀ (xs : List α) (i : Nat), (mapWithIdx f i xs).length = xs.length := by
  intro xs
  induction xs with
  | nil => intro i; rfl
  | cons a rest ih => intro i; simp [mapWithIdx, ih]

/-- When every row's text extraction succeeds, the root record loop
returns `ok` with exactly the in-order image of the input rows. -/
lemma root_processRowsGo_ok (clients : Nat → ClientSpec) (model col : String) :
    ∀ (rows : List JValue) (idx : Nat),
      (∀ row ∈ rows, exceptOk (Root.textOfRow row col) = true) →
      Root.processRowsGo clients model col idx rows
        = .ok (mapWithIdx (Root.processedRow clients model col) idx rows) := by
  intro rows
  induction rows with
  | nil => intro idx _; rfl
  | cons row rest ih =>
    intro idx h
    have hrow := h row (List.mem_cons_self row rest)
    simp only [Root.processRowsGo, mapWithIdx]
    cases ht : Root.textOfRow row col with
    | error e => rw [ht] at hrow; simp [exceptOk] at hrow
    | ok text =>
      dsimp only
      rw [ih (idx + 1) (fun r hr => h r (List.mem_cons_of_mem _ hr))]
      dsimp only
      simp [Root.processedRow, ht]

/-! ### Claim C1 -/

/-- Claim C1 (amended): for every behaviour of the classification client
(success, transient failure, persistent failure), the scripts pipeline
unconditionally produces exactly one output record per loaded input
record, carrying the inputs verbatim in order; the root pipeline does
the same — `ok`, one output row per loaded row, in order — provided
every loaded row's text-column value is well-typed for the
orchestrator's `(row.get(col) or "").strip()` extraction (a string or a
falsy value).  A loaded row whose text column holds a truthy non-string
instead aborts the whole batch (see the counterexample). -/
theorem c1_one_output_per_input_in_order
    (clients : Nat → ClientSpec) (model : String) (texts : List String)
    (clientsR : Nat → ClientSpec) (modelR colR : String) (rows : List JValue)
    (hrows : ∀ row ∈ rows, exceptOk (Root.textOfRow row colR) = true) :
    (Scripts.runRecords clients model texts).1.length = texts.length
    ∧ (Scripts.runRecords clients model texts).1.map Scripts.OutRecord.input = texts
    ∧ (Scripts.runRecords clients model texts).2.length = texts.length
    ∧ Root.processRows clientsR modelR colR rows
        = .ok (mapWithIdx (Root.processedRow clientsR modelR colR) 0 rows)
    ∧ (mapWithIdx (Root.processedRow clientsR modelR colR) 0 rows).length
        = rows.length :=
  ⟨(scripts_runRecordsGo_shape clients model texts 0).1,
   (scripts_runRecordsGo_shape clients model texts 0).2.1,
   (scripts_runRecordsGo_shape clients model texts 0).2.2,
   root_processRowsGo_ok clientsR modelR colR rows 0 hrows,
   mapWithIdx_length _ rows 0⟩

/-- Witness for C1 at a concrete two-record input and an always-failing
client. -/
theorem c1_one_output_per_input_in_order_witness :
    (∀ row ∈ [JValue.obj [("Response", JValue.str "yo")]],
        exceptOk (Root.textOfRow row "Response") = true)
    ∧ ((Scripts.runRecords (fun _ _ _ => ClientOutcome.otherErr "x") "m" ["a", "b"]).1.length
          = (["a", "b"] : List String).length
      ∧ (Scripts.runRecords (fun _ _ _ => ClientOutcome.otherErr "x") "m" ["a", "b"]).1.map
            Scripts.OutRecord.input = ["a", "b"]
      ∧ (Scripts.runRecords (fun _ _ _ => ClientOutcome.otherErr "x") "m" ["a", "b"]).2.length
          = (["a", "b"] : List String).length
      ∧ Root.processRows (fun _ _ _ => ClientOutcome.otherErr "x") "m" "Response"
            [JValue.obj [("Response", JValue.str "yo")]]
          = .ok (mapWithIdx
              (Root.processedRow (fun _ _ _ => ClientOutcome.otherErr "x") "m" "Response") 0
              [JValue.obj [("Response", JValue.str "yo")]])
      ∧ (mapWithIdx
            (Root.processedRow (fun _ _ _ => ClientOutcome.otherErr "x") "m" "Response") 0
            [JValue.obj [("Response", JValue.str "yo")]]).length
          = ([JValue.obj [("Response", JValue.str "yo")]] : List JValue).length) :=
  ⟨by decide,
   c1_one_output_per_input_in_order (fun _ _ _ => ClientOutcome.otherErr "x") "m" ["a", "b"]
     (fun _ _ _ => ClientOutcome.otherErr "x") "m" "Response"
     [JValue.obj [("Response", JValue.str "yo")]] (by decide)⟩

/-- Counterexample to claim C1 as stated: the claim quantifies over
every input file, but a JSON input file holding
`[{"Response": "fine"}, {"Response": 7}]` is loaded successfully by the
root `load_records` (the key check inspects only the first element), and
then the root record loop crashes on the second row —
`(row.get("Response") or "").strip()` raises `AttributeError` on the
truthy non-string `7` — aborting the batch with zero output records
instead of producing one output per input. -/
theorem c1_counterexample_root_pipeline_abort :
    Root.load_records "in.json"
        ⟨[], some (.arr [JValue.obj [("Response", JValue.str "fine")],
                         JValue.obj [("Response", JValue.num 7 0)]])⟩ "Response"
      = .ok [JValue.obj [("Response", JValue.str "fine")],
             JValue.obj [("Response", JValue.num 7 0)]]
    ∧ Root.processRows (fun _ _ _ => ClientOutcome.otherErr "x") "m" "Response"
        [JValue.obj [("Response", JValue.str "fine")],
         JValue.obj [("Response", JValue.num 7 0)]]
      = .error attributeErrorMsg
    ∧ ∀ out : List JValue,
        Root.processRows (fun _ _ _ => ClientOutcome.otherErr "x") "m" "Response"
          [JValue.obj [("Response", JValue.str "fine")],
           JValue.obj [("Response", JValue.num 7 0)]]
        ≠ .ok out := by
  refine ⟨rfl, rfl, ?_⟩
  intro out h
  rw [show Root.processRows (fun _ _ _ => ClientOutcome.otherErr "x") "m" "Response"
      [JValue.obj [("Response", JValue.str "fine")],
       JValue.obj [("Response", JValue.num 7 0)]]
    = .error attributeErrorMsg from rfl] at h
  exact Except.noConfusion h

/-! ### Claim C3 -/

/-- Claim C3: for every client that raises a non-retryable error on every
attempt, once the retry budget is exhausted `classify_text` returns a
fallback result with category "Other" and a nonempty diagnostic
rationale, without raising (both versions), and the orchestrator
continues to the next record (the scripts record loop still yields one
record per input for any client behaviours). -/
theorem c3_retry_exhaustion_fallback (client : ClientSpec) (model text : String)
    (max_retries : Nat) (hcl : ∀ p n, nonRetryableOutcome (client p n) = true)
    (hm : 1 ≤ max_retries) :
    (Root.classify_text client model text max_retries).category = "Other"
    ∧ (Root.classify_text client model text max_retries).payload ≠ ""
    ∧ (Scripts.classify_text client model text max_retries).category = "Other"
    ∧ (Scripts.classify_text client model text max_retries).payload ≠ ""
    ∧ ∀ (clients : Nat → ClientSpec) (texts : List String),
        (Scripts.runRecords clients model texts).1.length = texts.length := by
  have hr := root_classifyLoop_nonretryable client (Root.formatUserPrompt text)
    max_retries hcl max_retries 0 1 (Nat.zero_add _) hm
  have hs := scripts_classifyLoop_nonretryable client (Scripts.formatUserPrompt text)
    max_retries hcl max_retries 0 1 (Nat.zero_add _) hm
  exact ⟨hr.1, hr.2, hs.1, hs.2,
    fun clients texts => (scripts_runRecordsGo_shape clients model texts 0).1⟩

/-- Witness for C3: a client that always raises a 400-class error, with
the default budget of 5 attempts. -/
theorem c3_retry_exhaustion_fallback_witness :
    (∀ p n, nonRetryableOutcome
        ((fun (_ : String) (_ : Nat) => ClientOutcome.statusErr 400 "Bad Request") p n) = true)
    ∧ (1 : Nat) ≤ 5
    ∧ ((Root.classify_text (fun _ _ => ClientOutcome.statusErr 400 "Bad Request") "m" "t" 5).category
          = "Other"
      ∧ (Root.classify_text (fun _ _ => ClientOutcome.statusErr 400 "Bad Request") "m" "t" 5).payload
          ≠ ""
      ∧ (Scripts.classify_text (fun _ _ => ClientOutcome.statusErr 400 "Bad Request") "m" "t" 5).category
          = "Other"
      ∧ (Scripts.classify_text (fun _ _ => ClientOutcome.statusErr 400 "Bad Request") "m" "t" 5).payload
          ≠ ""
      ∧ ∀ (clients : Nat → ClientSpec) (texts : List String),
          (Scripts.runRecords clients "m" texts).1.length = texts.length) :=
  ⟨fun _ _ => rfl, by decide,
   c3_retry_exhaustion_fallback (fun _ _ => ClientOutcome.statusErr 400 "Bad Request")
     "m" "t" 5 (fun _ _ => rfl) (by decide)⟩

/-- Doubling with cap: stepping `min (2^k) 16` gives `min (2^(k+1)) 16`. -/
lemma nextDelay_pow (k : Nat) : nextDelay (min (2 ^ k) 16) = min (2 ^ (k + 1)) 16 := by
  unfold nextDelay
  rcases le_total (2 ^ k) 16 with h | h
  · rw [min_eq_left h, pow_succ]
  · rw [min_eq_right h]
    have h2 : (16 : Nat) ≤ 2 ^ (k + 1) := le_trans h (by rw [pow_succ]; omega)
    rw [min_eq_right h2]
    decide

/-- Backoff shape of the scripts retry loop: starting from delay
`min (2^k) 16`, the recorded sleeps are exactly the capped doubling
sequence continued from `k`; there is never a sleep on the final attempt
(at most `fuel - 1` sleeps), and at most `fuel` client calls are made. -/
lemma scripts_classifyLoop_sleeps (client : ClientSpec) (prompt : String)
    (maxR : Nat) : ∀ fuel attempt k, attempt + fuel = maxR →
      (Scripts.classifyLoop client prompt maxR fuel attempt (min (2 ^ k) 16)).sleeps
        = (List.range
            (Scripts.classifyLoop client prompt maxR fuel attempt (min (2 ^ k) 16)).sleeps.length).map
            (fun i => min (2 ^ (k + i)) 16)
      ∧ (Scripts.classifyLoop client prompt maxR fuel attempt (min (2 ^ k) 16)).sleeps.length
          ≤ fuel - 1
      ∧ (Scripts.classifyLoop client prompt maxR fuel attempt (min (2 ^ k) 16)).calls ≤ fuel := by
  intro fuel
  induction fuel with
  | zero =>
    intro attempt k _
    exact ⟨rfl, by simp [Scripts.classifyLoop], by simp [Scripts.classifyLoop]⟩
  | succ fuel ih =>
    intro attempt k hinv
    simp only [Scripts.classifyLoop]
    split
    · -- success arm
      split
      · exact ⟨rfl, by simp, by simp⟩
      · -- non-dict JSON value: generic arm
        split
        · exact ⟨rfl, by simp, by simp⟩
        · rename_i hlast
          rw [nextDelay_pow]
          have hr := ih (attempt + 1) (k + 1) (by omega)
          refine ⟨?_, ?_, ?_⟩
          · dsimp only
            rw [hr.1]
            simp only [List.length_cons, List.length_map, List.length_range,
              List.range_succ_eq_map, List.map_cons, List.map_map]
            congr 1
            apply List.map_congr_left
            intro i _
            show 2 ^ (k + 1 + i) ⊓ 16 = 2 ^ (k + (i + 1)) ⊓ 16
            have hik : k + 1 + i = k + (i + 1) := by omega
            rw [hik]
          · dsimp only
            simp only [List.length_cons]
            have := hr.2.1
            omega
          · dsimp only
            have := hr.2.2
            omega
      · -- JSON decode failure arm
        split
        · exact ⟨rfl, by simp, by simp⟩
        · have hr := ih (attempt + 1) k (by omega)
          refine ⟨?_, ?_, ?_⟩
          · dsimp only; exact hr.1
          · dsimp only
            have := hr.2.1
            omega
          · dsimp only
            have := hr.2.2
            omega
    · -- statusErr arm
      split
      · -- retryable, not last: sleep
        rename_i hcond
        rw [nextDelay_pow]
        have hr := ih (attempt + 1) (k + 1) (by omega)
        have hlt : attempt < maxR - 1 := hcond.2
        refine ⟨?_, ?_, ?_⟩
        · dsimp only
          rw [hr.1]
          simp only [List.length_cons, List.length_map, List.length_range,
            List.range_succ_eq_map, List.map_cons, List.map_map]
          congr 1
          apply List.map_congr_left
          intro i _
          show 2 ^ (k + 1 + i) ⊓ 16 = 2 ^ (k + (i + 1)) ⊓ 16
          have hik : k + 1 + i = k + (i + 1) := by omega
          rw [hik]
        · dsimp only
          simp only [List.length_cons]
          have := hr.2.1
          omega
        · dsimp only
          have := hr.2.2
          omega
      · split
        · exact ⟨rfl, by simp, by simp⟩
        · have hr := ih (attempt + 1) k (by omega)
          refine ⟨?_, ?_, ?_⟩
          · dsimp only; exact hr.1
          · dsimp only
            have := hr.2.1
            omega
          · dsimp only
            have := hr.2.2
            omega
    · -- otherErr arm
      split
      · exact ⟨rfl, by simp, by simp⟩
      · rename_i hlast
        rw [nextDelay_pow]
        have hr := ih (attempt + 1) (k + 1) (by omega)
        refine ⟨?_, ?_, ?_⟩
        · dsimp only
          rw [hr.1]
          simp only [List.length_cons, List.length_map, List.length_range,
            List.range_succ_eq_map, List.map_cons, List.map_map]
          congr 1
          apply List.map_congr_left
          intro i _
          show 2 ^ (k + 1 + i) ⊓ 16 = 2 ^ (k + (i + 1)) ⊓ 16
          have hik : k + 1 + i = k + (i + 1) := by omega
          rw [hik]
        · dsimp only
          simp only [List.length_cons]
          have := hr.2.1
          omega
        · dsimp only
          have := hr.2.2
          omega

/-! ### Claim C4 -/

/-- Claim C4: for every record, `classify_text` makes at most
`max_retries` (default 5) attempts; the sleeps between retries follow the
capped doubling sequence `min(2^i, 16)` starting at 1, and there is never
a sleep after the final attempt (at most `max_retries - 1` sleeps).  In
particular, a client raising a rate-limit error on attempts 1 and 2 and
succeeding on attempt 3 yields the successful result with exactly two
sleeps of 1 and 2 time units (checked on both script variants). -/
theorem c4_backoff_policy (client : ClientSpec) (model text : String)
    (max_retries : Nat) :
    ((Scripts.classify_text client model text max_retries).sleeps
        = (List.range
            (Scripts.classify_text client model text max_retries).sleeps.length).map
            (fun i => min (2 ^ i) 16)
      ∧ (Scripts.classify_text client model text max_retries).sleeps.length
          ≤ max_retries - 1
      ∧ (Scripts.classify_text client model text max_retries).calls ≤ max_retries)
    ∧ Scripts.classify_text
        (fun _ n => if n < 2 then ClientOutcome.statusErr 429 "rate limited"
          else ClientOutcome.success "\x7b\"category\": \"No Use\", \"reason\": \"ok\"\x7d")
        "m" "t" 5
        = ⟨"No Use", "\x7b\"category\": \"No Use\", \"reason\": \"ok\"\x7d", [1, 2], 3⟩
    ∧ Root.classify_text
        (fun _ n => if n < 2 then ClientOutcome.statusErr 429 "rate limited"
          else ClientOutcome.success "\x7b\"category\": \"No Use\", \"reason\": \"ok\"\x7d")
        "m" "t" 5
        = ⟨"No Use", "ok", [1, 2], 3⟩ := by
  refine ⟨?_, by decide, by decide⟩
  have h := scripts_classifyLoop_sleeps client (Scripts.formatUserPrompt text)
    max_retries max_retries 0 0 (Nat.zero_add _)
  have e : min (2 ^ 0) 16 = 1 := rfl
  rw [e] at h
  simp only [Nat.zero_add] at h
  exact h

/-! ### Claim C5 -/

/-- Claim C5: the parser locates the first brace and the last closing
brace; if both exist and the first precedes the last it parses only that
substring as JSON, otherwise it parses the entire text; a missing
`reason` field defaults to the empty string and a missing or non-string
`category` field normalizes to "Other".  Checked on the root
`classify_text` (which extracts both fields): the prose-wrapped example
yields ("No Use", "never used it"); reason/category defaulting behaves
as stated; a brace-free text falls back to whole-text parsing and the
parse-error fallback. -/
theorem c5_lenient_json_extraction :
    extractRegion "Here you go: \x7b\"category\": \"No Use\", \"reason\": \"never used it\"\x7d thanks"
      = "\x7b\"category\": \"No Use\", \"reason\": \"never used it\"\x7d"
    ∧ Root.classify_text
        (fun _ _ => ClientOutcome.success
          "Here you go: \x7b\"category\": \"No Use\", \"reason\": \"never used it\"\x7d thanks")
        "m" "t" 5
        = ⟨"No Use", "never used it", [], 1⟩
    ∧ Root.classify_text
        (fun _ _ => ClientOutcome.success "\x7b\"category\": \"No Use\"\x7d") "m" "t" 5
        = ⟨"No Use", "", [], 1⟩
    ∧ Root.classify_text
        (fun _ _ => ClientOutcome.success "\x7b\"reason\": \"hi\"\x7d") "m" "t" 5
        = ⟨"Other", "hi", [], 1⟩
    ∧ Root.classify_text
        (fun _ _ => ClientOutcome.success "\x7b\"category\": 3, \"reason\": \"hi\"\x7d") "m" "t" 5
        = ⟨"Other", "hi", [], 1⟩
    ∧ extractRegion "no braces here" = "no braces here"
    ∧ Root.classify_text (fun _ _ => ClientOutcome.success "no braces here") "m" "t" 5
        = ⟨"Other", "Could not parse model output", [], 5⟩
    ∧ extractRegion "\x7d after \x7b" = "\x7d after \x7b" := by
  refine ⟨by decide, by decide, by decide, by decide, by decide, by decide, by decide, by decide⟩

/-- The `find?` returns the (unique) matching element when exactly one
element of the list satisfies the predicate. -/
lemma find?_eq_some_of_unique {p : String → Bool} :
    ∀ {L : List String} {l : String}, l ∈ L → p l = true →
      (∀ a ∈ L, p a = true → a = l) → L.find? p = some l := by
  intro L
  induction L with
  | nil => intro l hl _ _; exact absurd hl (List.not_mem_nil l)
  | cons b L ih =>
    intro l hl hp huniq
    by_cases hb : p b = true
    · have hbl : b = l := huniq b (List.mem_cons_self b L) hb
      rw [List.find?_cons_of_pos _ hb, hbl]
    · rw [List.find?_cons_of_neg _ (by simp [hb])]
      rcases List.mem_cons.mp hl with rfl | hl2
      · exact absurd hp hb
      · exact ih hl2 hp (fun a ha hpa => huniq a (List.mem_cons_of_mem _ ha) hpa)

/-- The `normalizeWith` sends every non-string value to "Other". -/
lemma normalizeWith_nonstring (allowed : List String) (v : JValue)
    (hv : v.isStr = false) : normalizeWith allowed v = "Other" := by
  cases v <;> first | rfl | (simp [JValue.isStr] at hv)

/-- Exact characterization of the scripts normalizer on strings: it
returns the allowed label `l` exactly when the stripped, lowercased
input equals the lowercased label (the "Other" label additionally being
returned when nothing matches).  No fuzzy matching. -/
lemma scripts_normalize_str_iff (s l : String)
    (hl : l ∈ Scripts.ALLOWED_CATEGORIES) :
    Scripts.normalize_category (.str s) = l
      ↔ (pyLower (pyStrip s) = pyLower l
          ∨ (l = "Other"
             ∧ ∀ a ∈ Scripts.ALLOWED_CATEGORIES, pyLower (pyStrip s) ≠ pyLower a)) := by
  have hinj : ∀ a ∈ Scripts.ALLOWED_CATEGORIES, ∀ b ∈ Scripts.ALLOWED_CATEGORIES,
      pyLower a = pyLower b → a = b := by decide
  constructor
  · intro h
    cases hf : List.find? (fun a => pyLower (pyStrip s) == pyLower a)
        Scripts.ALLOWED_CATEGORIES with
    | none =>
      right
      have h2 : Scripts.normalize_category (.str s) = "Other" := by
        unfold Scripts.normalize_category normalizeWith
        dsimp only
        rw [hf]
      refine ⟨by rw [← h, h2], ?_⟩
      intro a ha hEq
      exact List.find?_eq_none.mp hf a ha (by simp [hEq])
    | some a =>
      left
      have h2 : Scripts.normalize_category (.str s) = a := by
        unfold Scripts.normalize_category normalizeWith
        dsimp only
        rw [hf]
      have hal : a = l := by rw [← h2, h]
      have hp := List.find?_some hf
      rw [eq_of_beq hp, hal]
  · intro h
    rcases h with h | ⟨hOther, hnone⟩
    · unfold Scripts.normalize_category normalizeWith
      dsimp only
      rw [find?_eq_some_of_unique hl (by simp [h])
        (fun a ha hpa => hinj a ha l hl ((eq_of_beq hpa).symm.trans h))]
    · subst hOther
      unfold Scripts.normalize_category normalizeWith
      dsimp only
      have hfn : List.find? (fun a => pyLower (pyStrip s) == pyLower a)
          Scripts.ALLOWED_CATEGORIES = none := by
        apply List.find?_eq_none.mpr
        intro a ha
        simp only [beq_iff_eq]
        exact hnone a ha
      rw [hfn]

/-! ### Claim C6 -/

/-- Claim C6: `normalize_category` is total (never fails) and maps its
input to an allowed label exactly when the input, after trimming, equals
that label case-insensitively — no fuzzy or partial matching; any
non-string or unmatched input maps to "Other".  In particular
`normalize(" cheating concerns ") = "Cheating Concerns"`,
`normalize("banana") = "Other"` and `normalize(None) = "Other"` (both
script variants for the concrete cases). -/
theorem c6_normalizer_total_exact_match (s l : String) (v : JValue)
    (hl : l ∈ Scripts.ALLOWED_CATEGORIES) (hv : v.isStr = false) :
    (Scripts.normalize_category (.str s) = l
      ↔ (pyLower (pyStrip s) = pyLower l
          ∨ (l = "Other"
             ∧ ∀ a ∈ Scripts.ALLOWED_CATEGORIES, pyLower (pyStrip s) ≠ pyLower a)))
    ∧ Scripts.normalize_category v = "Other"
    ∧ Root.normalize_category v = "Other"
    ∧ Scripts.normalize_category (.str " cheating concerns ") = "Cheating Concerns"
    ∧ Root.normalize_category (.str " cheating concerns ") = "Cheating Concerns"
    ∧ Scripts.normalize_category (.str "banana") = "Other"
    ∧ Root.normalize_category (.str "banana") = "Other"
    ∧ Scripts.normalize_category .null = "Other"
    ∧ Root.normalize_category .null = "Other" :=
  ⟨scripts_normalize_str_iff s l hl,
   normalizeWith_nonstring _ v hv,
   normalizeWith_nonstring _ v hv,
   by decide, by decide, by decide, by decide, by decide, by decide⟩

/-- Witness for C6 at the spec's concrete inputs. -/
theorem c6_normalizer_total_exact_match_witness :
    (("Cheating Concerns" : String) ∈ Scripts.ALLOWED_CATEGORIES
      ∧ JValue.isStr (JValue.num 7 0) = false)
    ∧ ((Scripts.normalize_category (.str " cheating concerns ") = "Cheating Concerns"
      ↔ (pyLower (pyStrip " cheating concerns ") = pyLower "Cheating Concerns"
          ∨ ("Cheating Concerns" = "Other"
             ∧ ∀ a ∈ Scripts.ALLOWED_CATEGORIES,
                 pyLower (pyStrip " cheating concerns ") ≠ pyLower a)))
      ∧ Scripts.normalize_category (JValue.num 7 0) = "Other"
      ∧ Root.normalize_category (JValue.num 7 0) = "Other"
      ∧ Scripts.normalize_category (.str " cheating concerns ") = "Cheating Concerns"
      ∧ Root.normalize_category (.str " cheating concerns ") = "Cheating Concerns"
      ∧ Scripts.normalize_category (.str "banana") = "Other"
      ∧ Root.normalize_category (.str "banana") = "Other"
      ∧ Scripts.normalize_category .null = "Other"
      ∧ Root.normalize_category .null = "Other") :=
  ⟨⟨by decide, by decide⟩,
   c6_normalizer_total_exact_match " cheating concerns " "Cheating Concerns"
     (JValue.num 7 0) (by decide) (by decide)⟩

/-- Lookup after a dict store: the stored key reads the stored value,
other keys are unaffected. -/
lemma dictGet_dictSet {α : Type} (k k2 : String) (v dflt : α) :
    ∀ d : List (String × α),
      dictGet (dictSet d k v) k2 dflt = if k = k2 then v else dictGet d k2 dflt := by
  intro d
  induction d with
  | nil => simp [dictSet, dictGet]
  | cons p rest ih =>
    obtain ⟨k0, v0⟩ := p
    by_cases h0 : k0 = k
    · subst h0
      by_cases h2 : k0 = k2 <;> simp [dictSet, dictGet, h2]
    · by_cases h2 : k0 = k2
      · subst h2
        have h3 : ¬k = k0 := fun h => h0 h.symm
        simp [dictSet, dictGet, h0, h3]
      · simp [dictSet, dictGet, h0, h2, ih]

/-- Zero-initialised association list reads zero everywhere. -/
lemma dictGet_map_zero (l : String) :
    ∀ L : List String, dictGet (L.map (fun a => (a, (0 : Nat)))) l 0 = 0 := by
  intro L
  induction L with
  | nil => rfl
  | cons a rest ih => by_cases h : a = l <;> simp [dictGet, h, ih]

/-- The counting fold of `build_summary` adds exactly the number of
occurrences to whatever the initial dict holds. -/
lemma counts_fold (l : String) :
    ∀ (cats : List String) (d : List (String × Nat)),
      dictGet (cats.foldl (fun d c => dictSet d c (dictGet d c 0 + 1)) d) l 0
        = dictGet d l 0 + cats.count l := by
  intro cats
  induction cats with
  | nil => intro d; simp
  | cons c rest ih =>
    intro d
    simp only [List.foldl_cons, ih, dictGet_dictSet, List.count_cons]
    by_cases h : c = l
    · subst h; simp; omega
    · have h2 : ¬l = c := fun hh => h hh.symm
      simp [h, h2]

/-- Storing preserves key presence. -/
lemma mem_keys_dictSet {α : Type} (k k2 : String) (v : α) :
    ∀ d : List (String × α),
      k2 ∈ d.map Prod.fst → k2 ∈ (dictSet d k v).map Prod.fst := by
  intro d
  induction d with
  | nil => intro h; exact absurd h (List.not_mem_nil _)
  | cons p rest ih =>
    obtain ⟨k0, v0⟩ := p
    intro h
    by_cases h0 : k0 = k
    · subst h0; simpa [dictSet] using h
    · rcases List.mem_cons.mp h with rfl | h2
      · simp [dictSet, h0]
      · simp [dictSet, h0, ih h2]

/-- The counting fold preserves key presence. -/
lemma mem_keys_counts_fold (l : String) :
    ∀ (cats : List String) (d : List (String × Nat)),
      l ∈ d.map Prod.fst →
      l ∈ (cats.foldl (fun d c => dictSet d c (dictGet d c 0 + 1)) d).map Prod.fst := by
  intro cats
  induction cats with
  | nil => intro d h; exact h
  | cons c rest ih =>
    intro d h
    exact ih _ (mem_keys_dictSet _ _ _ _ h)

/-- Lookup in an association list built by mapping over its key list. -/
lemma dictGet_map_self {α : Type} (f : String → α) (dflt : α) (l : String) :
    ∀ L : List String, l ∈ L →
      dictGet (L.map (fun a => (a, f a))) l dflt = f l := by
  intro L
  induction L with
  | nil => intro h; exact absurd h (List.not_mem_nil _)
  | cons a rest ih =>
    intro h
    by_cases ha : a = l
    · subst ha; simp [dictGet]
    · rcases List.mem_cons.mp h with rfl | h2
      · exact absurd rfl ha
      · simp [dictGet, ha, ih h2]

/-- The percent entry of `build_summary` for an allowed label is the
rounded `count * 100 / total`, guarded to 0 on an empty input. -/
lemma build_summary_percent (cats : List String) (l : String)
    (hl : l ∈ Scripts.ALLOWED_CATEGORIES) :
    dictGet (Scripts.build_summary cats).category_percents l 0
      = if cats.length = 0 then 0
        else round2 ((cats.count l : ℚ) * 100 / (cats.length : ℚ)) := by
  unfold Scripts.build_summary
  dsimp only
  rw [dictGet_map_self _ _ _ _ hl, counts_fold, dictGet_map_zero]
  simp

/-! ### Claim C7 -/

/-- Claim C7: `build_summary` initializes every allowed category to count
zero (every allowed category appears in both output maps, even with zero
occurrences), each count is the number of occurrences, each percent is
`round(count * 100 / total, 2)` and is 0.0 when the total is 0.  On
`["Other", "Other", "No Use"]` over the 9-label set: counts sum to 3,
percent("Other") = 66.67, percent("No Use") = 33.33, and every other
category has count 0 and percent 0.0. -/
theorem c7_build_summary_counts_and_percents (cats : List String) (l : String)
    (hl : l ∈ Scripts.ALLOWED_CATEGORIES) :
    (l ∈ (Scripts.build_summary cats).category_counts.map Prod.fst
      ∧ (Scripts.build_summary cats).category_percents.map Prod.fst
          = Scripts.ALLOWED_CATEGORIES
      ∧ dictGet (Scripts.build_summary cats).category_counts l 0 = cats.count l
      ∧ (Scripts.build_summary cats).total_inputs = cats.length
      ∧ dictGet (Scripts.build_summary cats).category_percents l 0
          = (if cats.length = 0 then 0
             else round2 ((cats.count l : ℚ) * 100 / (cats.length : ℚ))))
    ∧ ((Scripts.build_summary ["Other", "Other", "No Use"]).category_counts.map Prod.snd).sum = 3
    ∧ dictGet (Scripts.build_summary ["Other", "Other", "No Use"]).category_percents "Other" 0
        = 6667 / 100
    ∧ dictGet (Scripts.build_summary ["Other", "Other", "No Use"]).category_percents "No Use" 0
        = 3333 / 100
    ∧ (∀ l2 ∈ Scripts.ALLOWED_CATEGORIES, l2 ≠ "Other" → l2 ≠ "No Use" →
        dictGet (Scripts.build_summary ["Other", "Other", "No Use"]).category_counts l2 0 = 0
        ∧ dictGet (Scripts.build_summary ["Other", "Other", "No Use"]).category_percents l2 0
            = 0) := by
  refine ⟨⟨?_, ?_, ?_, ?_, build_summary_percent cats l hl⟩, by decide, ?_, ?_, ?_⟩
  · -- every allowed label is a key of the counts dict
    unfold Scripts.build_summary
    dsimp only
    apply mem_keys_counts_fold
    have : (Scripts.ALLOWED_CATEGORIES.map (fun label => (label, (0 : Nat)))).map Prod.fst
        = Scripts.ALLOWED_CATEGORIES := by
      rw [List.map_map]
      exact List.map_id _
    rw [this]
    exact hl
  · unfold Scripts.build_summary
    dsimp only
    rw [List.map_map]
    exact List.map_id _
  · unfold Scripts.build_summary
    dsimp only
    rw [counts_fold, dictGet_map_zero]
    simp
  · rfl
  · rw [build_summary_percent _ _ (by decide)]
    rw [show (["Other", "Other", "No Use"] : List String).count "Other" = 2 from by decide]
    norm_num [round2, roundHalfEven]
  · rw [build_summary_percent _ _ (by decide)]
    rw [show (["Other", "Other", "No Use"] : List String).count "No Use" = 1 from by decide]
    norm_num [round2, roundHalfEven]
  · intro l2 hl2 hno hnu
    have hc : (["Other", "Other", "No Use"] : List String).count l2 = 0 := by
      fin_cases hl2 <;>
        first
          | (exact absurd rfl hno)
          | (exact absurd rfl hnu)
          | decide
    refine ⟨?_, ?_⟩
    · fin_cases hl2 <;>
        first
          | (exact absurd rfl hno)
          | (exact absurd rfl hnu)
          | decide
    · rw [build_summary_percent _ _ hl2, hc]
      norm_num [round2, roundHalfEven]

/-- Witness for C7 at the spec's concrete aggregation example. -/
theorem c7_build_summary_counts_and_percents_witness :
    (("No Use" : String) ∈ Scripts.ALLOWED_CATEGORIES)
    ∧ (("No Use" : String)
          ∈ (Scripts.build_summary ["Other", "Other", "No Use"]).category_counts.map Prod.fst
      ∧ (Scripts.build_summary ["Other", "Other", "No Use"]).category_percents.map Prod.fst
          = Scripts.ALLOWED_CATEGORIES
      ∧ dictGet (Scripts.build_summary ["Other", "Other", "No Use"]).category_counts "No Use" 0
          = (["Other", "Other", "No Use"] : List String).count "No Use"
      ∧ (Scripts.build_summary ["Other", "Other", "No Use"]).total_inputs
          = (["Other", "Other", "No Use"] : List String).length
      ∧ dictGet (Scripts.build_summary ["Other", "Other", "No Use"]).category_percents "No Use" 0
          = (if (["Other", "Other", "No Use"] : List String).length = 0 then 0
             else round2 (((["Other", "Other", "No Use"] : List String).count "No Use" : ℚ) * 100
               / ((["Other", "Other", "No Use"] : List String).length : ℚ)))) :=
  ⟨by decide,
   ((c7_build_summary_counts_and_percents ["Other", "Other", "No Use"] "No Use" (by decide)).1)⟩

/-- Round-half-even lands within one half of the input. -/
lemma rhe_close (q : ℚ) : |((roundHalfEven q : Int) : ℚ) - q| ≤ 1 / 2 := by
  have h0 : (0 : ℚ) ≤ q - ⌊q⌋ := by have := Int.floor_le q; linarith
  have h1 : q - ⌊q⌋ < 1 := by have := Int.lt_floor_add_one q; linarith
  unfold roundHalfEven
  by_cases hlt : q - ⌊q⌋ < 1 / 2
  · rw [if_pos hlt, abs_le]
    constructor <;> linarith
  · rw [if_neg hlt]
    by_cases hgt : 1 / 2 < q - ⌊q⌋
    · rw [if_pos hgt]
      push_cast
      rw [abs_le]
      constructor <;> linarith
    · rw [if_neg hgt]
      have he : q - ⌊q⌋ = 1 / 2 := le_antisymm (not_lt.mp hgt) (not_lt.mp hlt)
      by_cases hev : ⌊q⌋ % 2 = 0
      · rw [if_pos hev, abs_le]
        constructor <;> linarith
      · rw [if_neg hev]
        push_cast
        rw [abs_le]
        constructor <;> linarith

/-- Two-decimal round-half-even lands within 1/200 of the input. -/
lemma round2_close (q : ℚ) : |round2 q - q| ≤ 1 / 200 := by
  have h := rhe_close (q * 100)
  unfold round2
  have h2 : ((roundHalfEven (q * 100) : Int) : ℚ) / 100 - q
      = (((roundHalfEven (q * 100) : Int) : ℚ) - q * 100) / 100 := by ring
  rw [h2, abs_div, abs_of_pos (show (0 : ℚ) < 100 by norm_num)]
  linarith

/-- Summed rounding error over a list of labels is at most
`length / 200`. -/
lemma sum_round2_close (f : String → ℚ) :
    ∀ L : List String,
      |(L.map (fun l => round2 (f l))).sum - (L.map f).sum|
        ≤ (L.length : ℚ) / 200 := by
  intro L
  induction L with
  | nil => simp
  | cons a rest ih =>
    simp only [List.map_cons, List.sum_cons, List.length_cons]
    have h1 := round2_close (f a)
    have step : round2 (f a) + (rest.map (fun l => round2 (f l))).sum
          - (f a + (rest.map f).sum)
        = (round2 (f a) - f a)
          + ((rest.map (fun l => round2 (f l))).sum - (rest.map f).sum) := by ring
    rw [step]
    have h2 := abs_add (round2 (f a) - f a)
      ((rest.map (fun l => round2 (f l))).sum - (rest.map f).sum)
    have h3 : ((rest.length + 1 : ℕ) : ℚ) = (rest.length : ℚ) + 1 := by push_cast; ring
    rw [h3]
    calc |(round2 (f a) - f a)
          + ((rest.map (fun l => round2 (f l))).sum - (rest.map f).sum)|
        ≤ |round2 (f a) - f a|
          + |(rest.map (fun l => round2 (f l))).sum - (rest.map f).sum| := h2
      _ ≤ 1 / 200 + (rest.length : ℚ) / 200 := add_le_add h1 ih
      _ = ((rest.length : ℚ) + 1) / 200 := by ring

/-- Sum of pointwise `f x + g x` over a list splits. -/
lemma sum_map_add_nat (f g : String → Nat) :
    ∀ L : List String,
      (L.map (fun x => f x + g x)).sum = (L.map f).sum + (L.map g).sum := by
  intro L
  induction L with
  | nil => rfl
  | cons a rest ih =>
    simp only [List.map_cons, List.sum_cons, ih]
    omega

/-- Indicator sum over a list not containing the element is zero. -/
lemma sum_indicator_zero (c : String) :
    ∀ L : List String, c ∉ L →
      (L.map (fun l => if c = l then (1 : Nat) else 0)).sum = 0 := by
  intro L
  induction L with
  | nil => intro _; rfl
  | cons a rest ih =>
    intro h
    have ha : ¬c = a := fun hh => h (by rw [hh]; exact List.mem_cons_self a rest)
    simp only [List.map_cons, List.sum_cons, if_neg ha]
    rw [ih (fun hh => h (List.mem_cons_of_mem _ hh))]

/-- Indicator sum over a duplicate-free list containing the element is
one. -/
lemma sum_indicator_one (c : String) :
    ∀ L : List String, L.Nodup → c ∈ L →
      (L.map (fun l => if c = l then (1 : Nat) else 0)).sum = 1 := by
  intro L
  induction L with
  | nil => intro _ h; exact absurd h (List.not_mem_nil _)
  | cons a rest ih =>
    intro hnd hc
    rcases List.mem_cons.mp hc with rfl | h2
    · simp only [List.map_cons, List.sum_cons, if_pos rfl]
      rw [sum_indicator_zero _ rest (List.nodup_cons.mp hnd).1]
      simp
    · have ha : ¬a = c := by
        intro hh
        exact (List.nodup_cons.mp hnd).1 (hh ▸ h2)
      have hca : ¬c = a := fun hh => ha hh.symm
      simp only [List.map_cons, List.sum_cons, if_neg hca]
      rw [ih (List.nodup_cons.mp hnd).2 h2]

/-- Over a duplicate-free label list covering all elements of `cats`,
the per-label occurrence counts sum to the length of `cats`. -/
lemma sum_map_count (L : List String) (hnd : L.Nodup) :
    ∀ cats : List String, (∀ x ∈ cats, x ∈ L) →
      (L.map (fun l => cats.count l)).sum = cats.length := by
  intro cats
  induction cats with
  | nil => intro _; simp
  | cons c rest ih =>
    intro h
    have hc := h c (List.mem_cons_self c rest)
    have hrest : ∀ x ∈ rest, x ∈ L := fun x hx => h x (List.mem_cons_of_mem _ hx)
    simp only [List.count_cons, beq_iff_eq]
    rw [sum_map_add_nat (fun l => rest.count l) (fun l => if c = l then 1 else 0) L,
      ih hrest, sum_indicator_one c L hnd hc, List.length_cons]

/-- Pulling a constant multiplier and divisor out of a mapped sum. -/
lemma sum_map_mul_div (f : String → ℚ) (c d : ℚ) :
    ∀ L : List String,
      (L.map (fun x => f x * c / d)).sum = (L.map f).sum * c / d := by
  intro L
  induction L with
  | nil => simp
  | cons a rest ih =>
    simp only [List.map_cons, List.sum_cons, ih]
    ring

/-! ### Claim C8 -/

/-- Claim C8: for every nonempty list of labels drawn from the allowed
set, the percentages produced by `build_summary` sum to 100.0 within
rounding tolerance (within 0.1 of 100.0); when the list is empty every
percentage is exactly 0.0. -/
theorem c8_percentages_sum_to_100 (cats : List String) (hne : cats ≠ [])
    (hsub : ∀ c ∈ cats, c ∈ Scripts.ALLOWED_CATEGORIES) :
    |((Scripts.build_summary cats).category_percents.map Prod.snd).sum - 100| ≤ 1 / 10
    ∧ ∀ p ∈ (Scripts.build_summary []).category_percents, p.2 = (0 : ℚ) := by
  refine ⟨?_, by decide⟩
  have hn : cats.length ≠ 0 := by
    cases cats with
    | nil => exact absurd rfl hne
    | cons a l => simp
  have hmap : (Scripts.build_summary cats).category_percents.map Prod.snd
      = Scripts.ALLOWED_CATEGORIES.map
          (fun l => round2 ((cats.count l : ℚ) * 100 / (cats.length : ℚ))) := by
    unfold Scripts.build_summary
    dsimp only
    rw [List.map_map]
    apply List.map_congr_left
    intro a _
    dsimp only [Function.comp]
    rw [counts_fold, dictGet_map_zero, if_neg hn]
    simp
  rw [hmap]
  have hclose := sum_round2_close
    (fun l => (cats.count l : ℚ) * 100 / (cats.length : ℚ)) Scripts.ALLOWED_CATEGORIES
  have hpull : (Scripts.ALLOWED_CATEGORIES.map
        (fun l => (cats.count l : ℚ) * 100 / (cats.length : ℚ))).sum
      = (Scripts.ALLOWED_CATEGORIES.map (fun l => ((cats.count l : ℕ) : ℚ))).sum
          * 100 / (cats.length : ℚ) :=
    sum_map_mul_div (fun l => ((cats.count l : ℕ) : ℚ)) 100 (cats.length : ℚ) _
  have hcast : (Scripts.ALLOWED_CATEGORIES.map (fun l => ((cats.count l : ℕ) : ℚ))).sum
      = ((Scripts.ALLOWED_CATEGORIES.map (fun l => cats.count l)).sum : ℕ) := by
    rw [Nat.cast_list_sum, List.map_map]
    rfl
  have hcount : (Scripts.ALLOWED_CATEGORIES.map (fun l => cats.count l)).sum
      = cats.length :=
    sum_map_count Scripts.ALLOWED_CATEGORIES (by decide) cats hsub
  have hsum : (Scripts.ALLOWED_CATEGORIES.map
        (fun l => (cats.count l : ℚ) * 100 / (cats.length : ℚ))).sum = 100 := by
    rw [hpull, hcast, hcount]
    have : ((cats.length : ℕ) : ℚ) ≠ 0 := Nat.cast_ne_zero.mpr hn
    field_simp
  rw [hsum] at hclose
  have hlen : ((Scripts.ALLOWED_CATEGORIES.length : ℕ) : ℚ) / 200 ≤ 1 / 10 := by
    norm_num [Scripts.ALLOWED_CATEGORIES]
  exact le_trans hclose hlen

/-- Witness for C8 at the spec's concrete aggregation example. -/
theorem c8_percentages_sum_to_100_witness :
    ((["Other", "Other", "No Use"] : List String) ≠ []
      ∧ ∀ c ∈ (["Other", "Other", "No Use"] : List String),
          c ∈ Scripts.ALLOWED_CATEGORIES)
    ∧ (|((Scripts.build_summary ["Other", "Other", "No Use"]).category_percents.map
            Prod.snd).sum - 100| ≤ 1 / 10
      ∧ ∀ p ∈ (Scripts.build_summary []).category_percents, p.2 = (0 : ℚ)) :=
  ⟨⟨by decide, by decide⟩,
   c8_percentages_sum_to_100 ["Other", "Other", "No Use"] (by decide) (by decide)⟩

/-- The scripts CSV loader is exactly: take each nonempty row's first
field, strip it, and keep the nonempty results in row order. -/
lemma collectAnswers_eq :
    ∀ rows : List (List String),
      Scripts.collectAnswers rows
        = ((rows.filterMap List.head?).map pyStrip).filter (fun t => t != "") := by
  intro rows
  induction rows with
  | nil => rfl
  | cons row rest ih =>
    cases row with
    | nil => simp [Scripts.collectAnswers, List.filterMap_cons, ih]
    | cons x xs =>
      simp only [Scripts.collectAnswers, List.filterMap_cons, List.head?,
        List.map_cons, List.filter_cons]
      by_cases h : pyStrip x = ""
      · simp [h, ih]
      · simp [h, ih]

/-- The keys of a `csv.DictReader` row are exactly the header. -/
lemma zipPad_keys : ∀ hs vs : List String, (zipPad hs vs).map Prod.fst = hs := by
  intro hs
  induction hs with
  | nil => intro vs; rfl
  | cons h rest ih => intro vs; cases vs <;> simp [zipPad, ih]

/-- The root CSV loader, when the column exists in the header, returns
all (non-blank) data rows verbatim as dicts — no trimming, no skipping
of whitespace-only texts. -/
lemma load_records_csv_ok (path : String) (fd : FileData) (col : String)
    (header : List String) (dataRows : List (List String))
    (hext : splitextLower path = ".csv") (hfd : fd.csvView = header :: dataRows)
    (hcol : col ∈ header) :
    Root.load_records path fd col
      = .ok ((dataRows.filter (fun r => !r.isEmpty)).map
          (fun r => JValue.obj (zipPad header r))) := by
  unfold Root.load_records
  simp only [hext, hfd, if_true]
  split
  · rename_i heq
    rw [heq]
  · rename_i r0 rest heq
    have hr0 : r0 ∈ (dataRows.filter (fun r => !r.isEmpty)).map
        (fun r => JValue.obj (zipPad header r)) := by
      rw [heq]; exact List.mem_cons_self _ _
    obtain ⟨r, _, rfl⟩ := List.mem_map.mp hr0
    rw [if_pos (by rw [show objKeys (JValue.obj (zipPad header r)) = (zipPad header r).map Prod.fst from rfl, zipPad_keys]; exact hcol)]

/-- The root CSV loader with at least one (non-blank) data row and a
missing column fails with the error naming the column and the header. -/
lemma load_records_csv_schema_error (path : String) (fd : FileData) (col : String)
    (header : List String) (dataRows : List (List String))
    (hext : splitextLower path = ".csv") (hfd : fd.csvView = header :: dataRows)
    (hcol : col ∉ header)
    (hne : dataRows.filter (fun r => !r.isEmpty) ≠ []) :
    Root.load_records path fd col = .error (.columnNotFound col header) := by
  unfold Root.load_records
  simp only [hext, hfd, if_true]
  split
  · rename_i heq
    exact absurd (List.map_eq_nil_iff.mp heq) hne
  · rename_i r0 rest heq
    have hr0 : r0 ∈ (dataRows.filter (fun r => !r.isEmpty)).map
        (fun r => JValue.obj (zipPad header r)) := by
      rw [heq]; exact List.mem_cons_self _ _
    obtain ⟨r, _, rfl⟩ := List.mem_map.mp hr0
    rw [if_neg (by rw [show objKeys (JValue.obj (zipPad header r)) = (zipPad header r).map Prod.fst from rfl, zipPad_keys]; exact hcol)]
    rw [show objKeys (JValue.obj (zipPad header r)) = (zipPad header r).map Prod.fst from rfl, zipPad_keys]

/-- The root loader fails with the format error on any extension other
than `.csv` and `.json`. -/
lemma load_records_bad_ext (path : String) (fd : FileData) (col : String)
    (h1 : splitextLower path ≠ ".csv") (h2 : splitextLower path ≠ ".json") :
    Root.load_records path fd col = .error .badExt := by
  unfold Root.load_records
  rw [if_neg h1, if_neg h2]

/-! ### Claim C9 (corrected) -/

/-- Counterexample to claim C9 as stated: the root loader
(`load_records`) does NOT return trimmed text values and does NOT skip
entries whose text is empty after trimming.  On a CSV with a single
data row holding only whitespace, the loader returns that row verbatim
(untrimmed, unskipped) instead of an empty sequence. -/
theorem c9_counterexample_root_loader_keeps_blank :
    Root.load_records "responses.csv" ⟨[["Response"], ["   "]], none⟩ "Response"
      = .ok [JValue.obj [("Response", JValue.str "   ")]]
    ∧ pyStrip "   " = ""
    ∧ Root.load_records "responses.csv" ⟨[["Response"], ["   "]], none⟩ "Response"
      ≠ .ok [] := by
  refine ⟨rfl, rfl, ?_⟩
  intro h
  exact List.cons_ne_nil _ _ (Except.ok.inj h)

/-- Claim C9 (amended): the scripts loader `read_csv_answers` returns
the ordered sequence of first-field texts with surrounding whitespace
trimmed, skipping rows empty after trim, preserving row order; the root
loader `load_records`, by contrast, returns the (non-blank) data rows
verbatim and in order — trimming happens later in the orchestrator and
whitespace-only texts are not skipped. -/
theorem c9_amended_loader_contract
    (path : String) (csvRows : List (List String))
    (hext : splitextLower path = ".csv")
    (pathR : String) (fd : FileData) (colR : String)
    (header : List String) (dataRows : List (List String))
    (hextR : splitextLower pathR = ".csv") (hfd : fd.csvView = header :: dataRows)
    (hcol : colR ∈ header) :
    Scripts.read_csv_answers path csvRows
      = .ok (((csvRows.filterMap List.head?).map pyStrip).filter (fun t => t != ""))
    ∧ Root.load_records pathR fd colR
        = .ok ((dataRows.filter (fun r => !r.isEmpty)).map
            (fun r => JValue.obj (zipPad header r))) := by
  constructor
  · unfold Scripts.read_csv_answers
    rw [if_pos hext, collectAnswers_eq]
  · exact load_records_csv_ok pathR fd colR header dataRows hextR hfd hcol

/-- Witness for the amended C9 at concrete files. -/
theorem c9_amended_loader_contract_witness :
    (splitextLower "in.csv" = ".csv"
      ∧ splitextLower "responses.csv" = ".csv"
      ∧ (FileData.mk [["Response"], ["hi"]] none).csvView = ["Response"] :: [["hi"]]
      ∧ ("Response" : String) ∈ (["Response"] : List String))
    ∧ (Scripts.read_csv_answers "in.csv" [["  a  ", "x"], [], ["  "], ["b"]]
        = .ok ((((([["  a  ", "x"], [], ["  "], ["b"]] : List (List String)).filterMap
              List.head?).map pyStrip).filter (fun t => t != "")))
      ∧ Root.load_records "responses.csv" ⟨[["Response"], ["hi"]], none⟩ "Response"
          = .ok ((([["hi"]] : List (List String)).filter (fun r => !r.isEmpty)).map
              (fun r => JValue.obj (zipPad ["Response"] r)))) :=
  ⟨⟨by decide, by decide, rfl, by decide⟩,
   c9_amended_loader_contract "in.csv" [["  a  ", "x"], [], ["  "], ["b"]] (by decide)
     "responses.csv" ⟨[["Response"], ["hi"]], none⟩ "Response" ["Response"] [["hi"]]
     (by decide) rfl (by decide)⟩

/-! ### Claim C10 (corrected) -/

/-- Counterexample to claim C10 as stated: a CSV file with a header row
but no data rows and an absent column selector does NOT fail — the
loader returns an empty list without ever checking the header. -/
theorem c10_counterexample_header_only_csv :
    ¬(("Response" : String) ∈ (["A"] : List String))
    ∧ Root.load_records "data.csv" ⟨[["A"]], none⟩ "Response" = .ok [] :=
  ⟨by decide, rfl⟩

/-- Claim C10 (amended): provided the tabular file has at least one
(non-blank) data row, an absent column selector makes the loader fail
with an error naming the missing column and listing the actual headers;
any unsupported file extension fails with the format error.  (With a
header row but no data rows the loader instead returns an empty list
without checking the header.) -/
theorem c10_amended_schema_and_format_errors
    (path : String) (fd : FileData) (col : String)
    (header : List String) (dataRows : List (List String))
    (hext : splitextLower path = ".csv") (hfd : fd.csvView = header :: dataRows)
    (hcol : col ∉ header)
    (hne : dataRows.filter (fun r => !r.isEmpty) ≠ [])
    (path2 : String) (fd2 : FileData) (col2 : String)
    (h1 : splitextLower path2 ≠ ".csv") (h2 : splitextLower path2 ≠ ".json") :
    Root.load_records path fd col = .error (.columnNotFound col header)
    ∧ Root.load_records path2 fd2 col2 = .error .badExt :=
  ⟨load_records_csv_schema_error path fd col header dataRows hext hfd hcol hne,
   load_records_bad_ext path2 fd2 col2 h1 h2⟩

/-- Witness for the amended C10 at concrete files. -/
theorem c10_amended_schema_and_format_errors_witness :
    (splitextLower "data.csv" = ".csv"
      ∧ (FileData.mk [["A"], ["x"]] none).csvView = ["A"] :: [["x"]]
      ∧ ¬(("Response" : String) ∈ (["A"] : List String))
      ∧ ([["x"]] : List (List String)).filter (fun r => !r.isEmpty) ≠ []
      ∧ splitextLower "data.txt" ≠ ".csv"
      ∧ splitextLower "data.txt" ≠ ".json")
    ∧ (Root.load_records "data.csv" ⟨[["A"], ["x"]], none⟩ "Response"
        = .error (.columnNotFound "Response" ["A"])
      ∧ Root.load_records "data.txt" ⟨[], none⟩ "Response" = .error .badExt) :=
  ⟨⟨by decide, rfl, by decide, by decide, by decide, by decide⟩,
   c10_amended_schema_and_format_errors "data.csv" ⟨[["A"], ["x"]], none⟩ "Response"
     ["A"] [["x"]] (by decide) rfl (by decide) (by decide)
     "data.txt" ⟨[], none⟩ "Response" (by decide) (by decide)⟩
